import Mathlib

/-!
Verification of the `openvpn-plugin` crate (Rust) against its
natural-language specification, via a shallow embedding of the
relevant source functions into Lean.

Modelling conventions:
* A C byte string (`CString`, NUL-terminated, no interior NUL) is a
  `List Nat` of its bytes (the terminator excluded).
* A raw pointer array (`*const *const c_char`) is
  `Option (List (Option CStringB))`: `none` models the null array
  pointer; each cell is `none` (a null pointer, the terminator) or
  `some s` (a pointer to string `s`).  Reading past the end of the
  modelled memory (an array with no terminator cell) is undefined
  behaviour in the source and is modelled by an `Option`-`none` result.
* `c_int` is `Int`.  All bitmask arithmetic in the source stays far
  below `2^31`, so `Nat` arithmetic is exact for it.
* `HashMap<CString, CString>` is an association list whose insert
  replaces the binding of an existing key (the observable semantics of
  `std::collections::HashMap::insert`).
* The report sink (the `log_error!` / `log_panic!` calls) is modelled
  by the list of reports a trampoline run emits.
-/

/-- Bytes of one C string, terminator excluded (`CString` in the source). -/
abbrev CStringB := List Nat

/-- `ParseError` from `src/ffi/parse.rs`. -/
inductive ParseError where
  | NullPtr : ParseError
  | NoEqual : CStringB → ParseError
deriving DecidableEq, Repr

/-- Scan of the loop in `string_array`: read cells until the first null
pointer.  `none` models the undefined behaviour of an array with no
terminator (the source would read past the allocation). -/
def scanStrings : List (Option CStringB) → Option (List CStringB)
  | [] => none
  | none :: _ => some []
  | some s :: rest => (scanStrings rest).map (fun t => s :: t)

/-- `ffi::parse::string_array` from `src/ffi/parse.rs`: null pointer ↦
`Err(NullPtr)`, otherwise collect the strings before the terminator. -/
def string_array (ptr : Option (List (Option CStringB))) :
    Option (Except ParseError (List CStringB)) :=
  match ptr with
  | none => some (Except.error ParseError.NullPtr)
  | some cells => (scanStrings cells).map Except.ok

/-- The environment map: `HashMap<CString, CString>` as an association
list with at most one binding per key. -/
abbrev EnvMap := List (CStringB × CStringB)

/-- `HashMap::insert` semantics: replace the binding of `k` if present,
otherwise append a new one. -/
def mapInsert : EnvMap → CStringB → CStringB → EnvMap
  | [], k, v => [(k, v)]
  | (k', v') :: rest, k, v =>
    if k' = k then (k, v) :: rest else (k', v') :: mapInsert rest k v

/-- `HashMap::get` semantics on the association-list model. -/
def mapLookup : EnvMap → CStringB → Option CStringB
  | [], _ => none
  | (k', v) :: rest, k => if k' = k then some v else mapLookup rest k

/-- `Iterator::position(|&c| c == b'=')` from the body of `env`:
index of the first `=` byte (61) of a string, if any. -/
def positionEq : CStringB → Option Nat
  | [] => none
  | c :: rest => if c == 61 then some 0 else (positionEq rest).map (fun i => i + 1)

/-- One iteration of the `for` loop in `ffi::parse::env`: split the
entry at its first `=` and insert it, or fail with `NoEqual`. -/
def envInsertEntry (m : EnvMap) (s : CStringB) : Except ParseError EnvMap :=
  match positionEq s with
  | none => Except.error (ParseError.NoEqual s)
  | some i => Except.ok (mapInsert m (s.take i) (s.drop (i + 1)))

/-- The `for` loop of `ffi::parse::env` with the `?` operator:
process the parsed strings in order, stopping at the first failure. -/
def envGo (m : EnvMap) : List CStringB → Except ParseError EnvMap
  | [] => Except.ok m
  | s :: rest =>
    match envInsertEntry m s with
    | Except.error e => Except.error e
    | Except.ok m' => envGo m' rest

/-- The pure part of `ffi::parse::env`: build the map from the already
parsed string list. -/
def envFromList (strs : List CStringB) : Except ParseError EnvMap :=
  envGo [] strs

/-- `ffi::parse::env` from `src/ffi/parse.rs`: `string_array`, then the
splitting loop. -/
def env (envptr : Option (List (Option CStringB))) :
    Option (Except ParseError EnvMap) :=
  match string_array envptr with
  | none => none
  | some (Except.error e) => some (Except.error e)
  | some (Except.ok strs) => some (envFromList strs)

/-- `InvalidEnumVariant` from `src/types.rs`: carries the rejected
`c_int`. -/
structure InvalidEnumVariant where
  val : Int
deriving DecidableEq, Repr

/-- `OpenVpnPluginEvent` from `src/types.rs`: the variants the crate
compiles in, with discriminants 0 through 13. -/
inductive OpenVpnPluginEvent where
  | Up | Down | RouteUp | IpChange | TlsVerify | AuthUserPassVerify
  | ClientConnect | ClientDisconnect | LearnAddress | ClientConnectV2
  | TlsFinal | EnablePf | RoutePredown | N
deriving DecidableEq, Repr

/-- The discriminant of each variant (`event as i32` in the source). -/
def eventCodeN : OpenVpnPluginEvent → Nat
  | .Up => 0
  | .Down => 1
  | .RouteUp => 2
  | .IpChange => 3
  | .TlsVerify => 4
  | .AuthUserPassVerify => 5
  | .ClientConnect => 6
  | .ClientDisconnect => 7
  | .LearnAddress => 8
  | .ClientConnectV2 => 9
  | .TlsFinal => 10
  | .EnablePf => 11
  | .RoutePredown => 12
  | .N => 13

/-- The discriminant as a `c_int`. -/
def eventCode (e : OpenVpnPluginEvent) : Int := eventCodeN e

/-- The `transmute_copy` of `from_int` restricted to the guarded range:
the variant whose discriminant is `n` (only reached for `n ≤ 13`). -/
def eventOfNat (n : Nat) : OpenVpnPluginEvent :=
  match n with
  | 0 => .Up
  | 1 => .Down
  | 2 => .RouteUp
  | 3 => .IpChange
  | 4 => .TlsVerify
  | 5 => .AuthUserPassVerify
  | 6 => .ClientConnect
  | 7 => .ClientDisconnect
  | 8 => .LearnAddress
  | 9 => .ClientConnectV2
  | 10 => .TlsFinal
  | 11 => .EnablePf
  | 12 => .RoutePredown
  | _ => .N

/-- `OpenVpnPluginEvent::from_int` from `src/types.rs`: accept exactly
the range `Up as c_int ..= N as c_int`, i.e. `0 ..= 13`, producing the
variant with that discriminant; reject everything else with
`InvalidEnumVariant(i)`. -/
def OpenVpnPluginEvent.from_int (i : Int) :
    Except InvalidEnumVariant OpenVpnPluginEvent :=
  if 0 ≤ i ∧ i ≤ 13 then Except.ok (eventOfNat i.toNat)
  else Except.error ⟨i⟩

/-- `events_to_bitmask` from `src/types.rs`: OR together `1 << code`
over the listed events.  All codes are ≤ 13, so the `c_int` arithmetic
of the source is exact in `Nat`. -/
def events_to_bitmask (events : List OpenVpnPluginEvent) : Nat :=
  events.foldl (fun bitmask e => bitmask ||| (1 <<< eventCodeN e)) 0

/-- `EventResult` from `src/types.rs`. -/
inductive EventResult where
  | Success | Deferred | Failure
deriving DecidableEq, Repr

/-- `OPENVPN_PLUGIN_FUNC_SUCCESS` from `src/ffi/mod.rs`. -/
def OPENVPN_PLUGIN_FUNC_SUCCESS : Int := 0

/-- `OPENVPN_PLUGIN_FUNC_ERROR` from `src/ffi/mod.rs`. -/
def OPENVPN_PLUGIN_FUNC_ERROR : Int := 1

/-- `OPENVPN_PLUGIN_FUNC_DEFERRED` from `src/ffi/mod.rs`. -/
def OPENVPN_PLUGIN_FUNC_DEFERRED : Int := 2

/-- Outcome of one `catch_unwind`-wrapped invocation of a user
callback: a returned value, a returned `Err(e)` (the error's content
only feeds the report sink), or a caught panic. -/
inductive CbOutcome (α : Type) where
  | ok : α → CbOutcome α
  | err : CbOutcome α
  | caughtPanic : CbOutcome α

/-- One invocation of the report sink: `log_error!` (an error with its
cause chain) or `log_panic!` (with the originating stage name). -/
inductive Report where
  | errorReport : Report
  | panicReport : List Char → Report
deriving DecidableEq

/-- Rust `str` debug escaping (`{:?}`) for the characters a panic
payload in this crate can carry: quote, backslash and the common
control characters; other printable characters render as themselves
(the `\u` escapes of non-printable Unicode are outside this model). -/
def escapeChar (c : Char) : List Char :=
  if c = '"' then ['\\', '"']
  else if c = '\\' then ['\\', '\\']
  else if c = '\n' then ['\\', 'n']
  else if c = '\r' then ['\\', 'r']
  else if c = '\t' then ['\\', 't']
  else [c]

/-- Rust `{:?}` rendering of a `&str`: the escaped characters between
double quotes. -/
def rustStrDebug (s : List Char) : List Char :=
  '"' :: s.foldr (fun c acc => escapeChar c ++ acc) [] ++ ['"']

/-- `logging::log_panic` from `src/logging.rs`: the rendered report
message.  `payload` is the panic payload's `&str` content when it has
one (`downcast_ref::<&str>()`); the source substitutes the empty
string (`unwrap_or(&"")`) when it has none.  The message is
`format!("Panic in the {} callback: {:?}", source, panic_msg)`. -/
def log_panic (source : List Char) (payload : Option (List Char)) : List Char :=
  "Panic in the ".data ++ source ++ " callback: ".data
    ++ rustStrDebug (payload.getD [])

/-- Whether `pat` occurs at the start of `s`. -/
def occursAtStart (pat s : List Char) : Bool :=
  match pat, s with
  | [], _ => true
  | _ :: _, [] => false
  | p :: ps, c :: cs => p == c && occursAtStart ps cs

/-- Whether `pat` occurs as a contiguous run anywhere in `s`. -/
def occursIn (pat : List Char) : List Char → Bool
  | [] => pat.isEmpty
  | c :: cs => occursAtStart pat (c :: cs) || occursIn pat cs

/-- `openvpn_plugin_open` from `src/lib.rs` (the open trampoline).
`argv`/`envp` are the raw arrays of `openvpn_plugin_args_open_in`;
`open_fn` is the user callback, its `catch_unwind`-observed outcome a
`CbOutcome` of the registered events and the new handle; `ret0` is the
content of the caller's `openvpn_plugin_args_open_return` struct
(`type_mask`, and what the handle slot designates — `some h` meaning
it points at a live boxed handle) before the call.  The result is the
returned status, the struct content after the call, and the emitted
reports; `none` models the undefined behaviour of an unterminated
array. -/
def openvpn_plugin_open (H : Type)
    (argv envp : Option (List (Option CStringB)))
    (open_fn : List CStringB → EnvMap → CbOutcome (List OpenVpnPluginEvent × H))
    (ret0 : Int × Option H) :
    Option (Int × (Int × Option H) × List Report) :=
  match string_array argv with
  | none => none
  | some (Except.error _) => some (OPENVPN_PLUGIN_FUNC_ERROR, ret0, [Report.errorReport])
  | some (Except.ok parsed_args) =>
    match env envp with
    | none => none
    | some (Except.error _) => some (OPENVPN_PLUGIN_FUNC_ERROR, ret0, [Report.errorReport])
    | some (Except.ok parsed_env) =>
      match open_fn parsed_args parsed_env with
      | CbOutcome.ok (events, handle) =>
        some (OPENVPN_PLUGIN_FUNC_SUCCESS,
          ((events_to_bitmask events : Int), some handle), [])
      | CbOutcome.err =>
        some (OPENVPN_PLUGIN_FUNC_ERROR, ret0, [Report.errorReport])
      | CbOutcome.caughtPanic =>
        some (OPENVPN_PLUGIN_FUNC_ERROR, ret0, [Report.panicReport "plugin open".data])

/-- `openvpn_plugin_func` from `src/lib.rs` (the event trampoline).
`event_type`, `argv`, `envp` are the fields of
`openvpn_plugin_args_func_in`; `event_fn` is the user callback with
its `catch_unwind`-observed outcome (the opaque handle it borrows is
not part of any claim and is elided).  The result is the returned
status and the emitted reports; `none` models the undefined behaviour
of an unterminated array. -/
def openvpn_plugin_func (event_type : Int)
    (argv envp : Option (List (Option CStringB)))
    (event_fn : OpenVpnPluginEvent → List CStringB → EnvMap → CbOutcome EventResult) :
    Option (Int × List Report) :=
  match OpenVpnPluginEvent.from_int event_type with
  | Except.error _ => some (OPENVPN_PLUGIN_FUNC_ERROR, [Report.errorReport])
  | Except.ok event =>
    match string_array argv with
    | none => none
    | some (Except.error _) => some (OPENVPN_PLUGIN_FUNC_ERROR, [Report.errorReport])
    | some (Except.ok parsed_args) =>
      match env envp with
      | none => none
      | some (Except.error _) => some (OPENVPN_PLUGIN_FUNC_ERROR, [Report.errorReport])
      | some (Except.ok parsed_env) =>
        match event_fn event parsed_args parsed_env with
        | CbOutcome.ok EventResult.Success => some (OPENVPN_PLUGIN_FUNC_SUCCESS, [])
        | CbOutcome.ok EventResult.Deferred => some (OPENVPN_PLUGIN_FUNC_DEFERRED, [])
        | CbOutcome.ok EventResult.Failure => some (OPENVPN_PLUGIN_FUNC_ERROR, [])
        | CbOutcome.err => some (OPENVPN_PLUGIN_FUNC_ERROR, [Report.errorReport])
        | CbOutcome.caughtPanic =>
          some (OPENVPN_PLUGIN_FUNC_ERROR, [Report.panicReport "plugin func".data])

/-- The binding an entry list determines for key `k` when later
entries take precedence: the value of the last entry whose key part
(before its first `=`) is `k`. -/
def lastBinding : List CStringB → CStringB → Option CStringB
  | [], _ => none
  | s :: rest, k =>
    match lastBinding rest k with
    | some v => some v
    | none =>
      match positionEq s with
      | none => none
      | some i => if s.take i = k then some (s.drop (i + 1)) else none

/-- A concrete open callback that always panics (for witnesses). -/
def panicOpenCb : List CStringB → EnvMap → CbOutcome (List OpenVpnPluginEvent × Unit) :=
  fun _ _ => CbOutcome.caughtPanic

/-- A concrete open callback that always returns `Err` (for witnesses). -/
def errOpenCb : List CStringB → EnvMap → CbOutcome (List OpenVpnPluginEvent × Unit) :=
  fun _ _ => CbOutcome.err

/-- A concrete event callback that always succeeds (for witnesses). -/
def successEventCb :
    OpenVpnPluginEvent → List CStringB → EnvMap → CbOutcome EventResult :=
  fun _ _ _ => CbOutcome.ok EventResult.Success

/-- The bytes of `"foo=bar=baz"`. -/
def fooBarBazBytes : CStringB := [102, 111, 111, 61, 98, 97, 114, 61, 98, 97, 122]

/-- The bytes of `"foo"`. -/
def fooBytes : CStringB := [102, 111, 111]

/-- The bytes of `"bar=baz"`. -/
def barBazBytes : CStringB := [98, 97, 114, 61, 98, 97, 122]

/-- The bytes of `"foo=123"`. -/
def fooEq123Bytes : CStringB := [102, 111, 111, 61, 49, 50, 51]

/-- The bytes of `"foo=abc"`. -/
def fooEqAbcBytes : CStringB := [102, 111, 111, 61, 97, 98, 99]

/-- The bytes of `"abc"`. -/
def abcBytes : CStringB := [97, 98, 99]

/-- The bytes of `"foobar"`. -/
def foobarBytes : CStringB := [102, 111, 111, 98, 97, 114]

/-! ## Helper lemmas -/

/-- `positionEq` finds an actual split: the string is its first `i`
bytes, then the `=` byte, then the rest, and no `=` occurs among the
first `i` bytes. -/
theorem positionEq_split (s : CStringB) (i : Nat) (h : positionEq s = some i) :
    s = s.take i ++ 61 :: s.drop (i + 1) ∧ (61 : Nat) ∉ s.take i := by
  induction s generalizing i with
  | nil => simp [positionEq] at h
  | cons c rest ih =>
    by_cases hc : c = 61
    · subst hc
      simp [positionEq] at h
      subst h
      simp
    · have hcb : (c == 61) = false := by simpa using hc
      simp only [positionEq, hcb, Bool.false_eq_true, if_false, Option.map_eq_some'] at h
      obtain ⟨j, hj, hij⟩ := h
      subst hij
      obtain ⟨h1, h2⟩ := ih j hj
      constructor
      · simpa [List.take_succ_cons, List.drop_succ_cons] using congrArg (c :: ·) h1
      · simp only [List.take_succ_cons, List.mem_cons]
        rintro (h | h)
        · exact hc h.symm
        · exact h2 h

/-- `positionEq` returns `none` exactly when the string has no `=`
byte. -/
theorem positionEq_none_iff (s : CStringB) :
    positionEq s = none ↔ (61 : Nat) ∉ s := by
  induction s with
  | nil => simp [positionEq]
  | cons c rest ih =>
    by_cases hc : c = 61
    · subst hc; simp [positionEq]
    · have hcb : (c == 61) = false := by simpa using hc
      simp [positionEq, hcb, ih]
      exact fun _ h => hc h.symm

/-- Lookup after a `HashMap`-style insert: the inserted key maps to
the new value, every other key is unaffected. -/
theorem mapLookup_mapInsert (m : EnvMap) (k v k2 : CStringB) :
    mapLookup (mapInsert m k v) k2 = if k = k2 then some v else mapLookup m k2 := by
  induction m with
  | nil => simp [mapInsert, mapLookup]
  | cons p rest ih =>
    obtain ⟨k', v'⟩ := p
    by_cases h1 : k' = k
    · subst h1
      by_cases h2 : k' = k2 <;> simp [mapInsert, mapLookup, h2]
    · by_cases h2 : k' = k2
      · subst h2
        have hk : ¬ k = k' := fun h => h1 h.symm
        simp [mapInsert, mapLookup, h1, hk]
      · simp [mapInsert, mapLookup, h1, h2, ih]

/-- The scan of `string_array` on a well-formed array collects exactly
the strings before the first null cell. -/
theorem scanStrings_wellFormed (strs : List CStringB) (rest : List (Option CStringB)) :
    scanStrings (strs.map some ++ none :: rest) = some strs := by
  induction strs with
  | nil => rfl
  | cons s t ih => simp [scanStrings, ih]

/-- An OR-fold over a list can start from any accumulator: the
accumulator factors out. -/
theorem foldl_lor_shift (f : OpenVpnPluginEvent → Nat) (l : List OpenVpnPluginEvent) :
    ∀ a : Nat,
      l.foldl (fun b e => b ||| f e) a = a ||| l.foldr (fun e acc => f e ||| acc) 0 := by
  induction l with
  | nil => intro a; simp
  | cons e t ih =>
    intro a
    simp only [List.foldl_cons, List.foldr_cons, ih, Nat.lor_assoc]

/-- A successful run of the `env` loop binds each key to the value of
the last entry carrying it; keys bound by no entry keep whatever the
starting accumulator gave them. -/
theorem envGo_lookup (l : List CStringB) :
    ∀ (m0 m : EnvMap) (k : CStringB), envGo m0 l = Except.ok m →
      mapLookup m k =
        match lastBinding l k with
        | some v => some v
        | none => mapLookup m0 k := by
  induction l with
  | nil =>
    intro m0 m k h
    simp only [envGo, Except.ok.injEq] at h
    subst h
    simp [lastBinding]
  | cons s rest ih =>
    intro m0 m k h
    simp only [envGo] at h
    cases hp : positionEq s with
    | none => simp [envInsertEntry, hp] at h
    | some i =>
      simp only [envInsertEntry, hp] at h
      have hrec := ih (mapInsert m0 (s.take i) (s.drop (i + 1))) m k h
      rw [hrec]
      simp only [lastBinding, hp]
      cases hlb : lastBinding rest k with
      | some v => simp
      | none =>
        simp only
        rw [mapLookup_mapInsert]
        by_cases hk : s.take i = k <;> simp [hk]

/-- If some entry of the list has no `=` byte, the `env` loop fails
with `NoEqual` of such an entry, whatever the accumulator. -/
theorem envGo_missing_sep (l : List CStringB) :
    ∀ m0 : EnvMap, (∃ s ∈ l, (61 : Nat) ∉ s) →
      ∃ t ∈ l, (61 : Nat) ∉ t ∧ envGo m0 l = Except.error (ParseError.NoEqual t) := by
  induction l with
  | nil => intro m0 h; simp at h
  | cons s rest ih =>
    intro m0 h
    by_cases hs : (61 : Nat) ∈ s
    · cases hpi : positionEq s with
      | none => exact absurd ((positionEq_none_iff s).mp hpi) (by simpa using hs)
      | some i =>
        obtain ⟨t, ht, htn⟩ := h
        have ht' : t ∈ rest := by
          rcases List.mem_cons.mp ht with h | h
          · subst h; exact absurd hs htn
          · exact h
        obtain ⟨u, hu, hun, hgo⟩ :=
          ih (mapInsert m0 (s.take i) (s.drop (i + 1))) ⟨t, ht', htn⟩
        exact ⟨u, List.mem_cons_of_mem _ hu, hun,
          by simp [envGo, envInsertEntry, hpi, hgo]⟩
    · have hp : positionEq s = none := (positionEq_none_iff s).mpr hs
      exact ⟨s, List.mem_cons_self s rest, hs,
        by simp [envGo, envInsertEntry, hp]⟩

/-- Every terminating run of the open trampoline either succeeds —
having parsed both arrays, obtained events and a handle from the
callback, and written the bitmask and the new allocation into the
return struct with no report — or returns `ERROR` with the return
struct exactly as it was. -/
theorem openvpn_plugin_open_spec (H : Type)
    (argv envp : Option (List (Option CStringB)))
    (open_fn : List CStringB → EnvMap → CbOutcome (List OpenVpnPluginEvent × H))
    (ret0 : Int × Option H) (st : Int) (ret1 : Int × Option H)
    (reps : List Report)
    (h : openvpn_plugin_open H argv envp open_fn ret0 = some (st, ret1, reps)) :
    (st = OPENVPN_PLUGIN_FUNC_SUCCESS ∧
      ∃ a e events handle,
        string_array argv = some (Except.ok a) ∧ env envp = some (Except.ok e) ∧
        open_fn a e = CbOutcome.ok (events, handle) ∧
        ret1 = ((events_to_bitmask events : Int), some handle) ∧ reps = []) ∨
    (st = OPENVPN_PLUGIN_FUNC_ERROR ∧ ret1 = ret0) := by
  cases hsa : string_array argv with
  | none => simp [openvpn_plugin_open, hsa] at h
  | some ra =>
    cases ra with
    | error e0 =>
      simp [openvpn_plugin_open, hsa] at h
      exact Or.inr ⟨h.1.symm, h.2.1.symm⟩
    | ok a =>
      cases henv : env envp with
      | none => simp [openvpn_plugin_open, hsa, henv] at h
      | some re =>
        cases re with
        | error e0 =>
          simp [openvpn_plugin_open, hsa, henv] at h
          exact Or.inr ⟨h.1.symm, h.2.1.symm⟩
        | ok e =>
          cases hcb : open_fn a e with
          | ok p =>
            obtain ⟨events, handle⟩ := p
            simp [openvpn_plugin_open, hsa, henv, hcb] at h
            exact Or.inl ⟨h.1.symm, a, e, events, handle, rfl, rfl, hcb,
              h.2.1.symm, h.2.2⟩
          | err =>
            simp [openvpn_plugin_open, hsa, henv, hcb] at h
            exact Or.inr ⟨h.1.symm, h.2.1.symm⟩
          | caughtPanic =>
            simp [openvpn_plugin_open, hsa, henv, hcb] at h
            exact Or.inr ⟨h.1.symm, h.2.1.symm⟩

/-- Every terminating run of the event trampoline returns one of the
three status integers, and whenever the callback's caught outcome is a
panic the status is `ERROR`. -/
theorem openvpn_plugin_func_status (event_type : Int)
    (argv envp : Option (List (Option CStringB)))
    (event_fn : OpenVpnPluginEvent → List CStringB → EnvMap → CbOutcome EventResult)
    (st : Int) (reps : List Report)
    (h : openvpn_plugin_func event_type argv envp event_fn = some (st, reps)) :
    (st = OPENVPN_PLUGIN_FUNC_SUCCESS ∨ st = OPENVPN_PLUGIN_FUNC_ERROR ∨
     st = OPENVPN_PLUGIN_FUNC_DEFERRED) ∧
    ((∀ ev a e, event_fn ev a e = CbOutcome.caughtPanic) →
      st = OPENVPN_PLUGIN_FUNC_ERROR) := by
  cases hev : OpenVpnPluginEvent.from_int event_type with
  | error e0 =>
    simp [openvpn_plugin_func, hev] at h
    exact ⟨Or.inr (Or.inl h.1.symm), fun _ => h.1.symm⟩
  | ok ev =>
    cases hsa : string_array argv with
    | none => simp [openvpn_plugin_func, hev, hsa] at h
    | some ra =>
      cases ra with
      | error e0 =>
        simp [openvpn_plugin_func, hev, hsa] at h
        exact ⟨Or.inr (Or.inl h.1.symm), fun _ => h.1.symm⟩
      | ok a =>
        cases henv : env envp with
        | none => simp [openvpn_plugin_func, hev, hsa, henv] at h
        | some re =>
          cases re with
          | error e0 =>
            simp [openvpn_plugin_func, hev, hsa, henv] at h
            exact ⟨Or.inr (Or.inl h.1.symm), fun _ => h.1.symm⟩
          | ok e =>
            cases hcb : event_fn ev a e with
            | ok r =>
              cases r <;> simp [openvpn_plugin_func, hev, hsa, henv, hcb] at h
              · exact ⟨Or.inl h.1.symm, fun hall => by
                  have := hall ev a e; rw [hcb] at this; cases this⟩
              · exact ⟨Or.inr (Or.inr h.1.symm), fun hall => by
                  have := hall ev a e; rw [hcb] at this; cases this⟩
              · exact ⟨Or.inr (Or.inl h.1.symm), fun _ => h.1.symm⟩
            | err =>
              simp [openvpn_plugin_func, hev, hsa, henv, hcb] at h
              exact ⟨Or.inr (Or.inl h.1.symm), fun _ => h.1.symm⟩
            | caughtPanic =>
              simp [openvpn_plugin_func, hev, hsa, henv, hcb] at h
              exact ⟨Or.inr (Or.inl h.1.symm), fun _ => h.1.symm⟩

/-! ## C1: event decoding range -/

/-- C1 counterexample: the claim's event table runs through
`AuthFailed = 16` with `ClientConnectDefer = 13`, but the compiled-in
enum ends at `RoutePredown = 12` followed by the sentinel `N = 13`:
`from_int 16` fails and `from_int 13` yields `N`, not a
`ClientConnectDefer` variant (none exists). -/
theorem from_int_claim_counterexample :
    OpenVpnPluginEvent.from_int 16 = Except.error ⟨16⟩ ∧
    OpenVpnPluginEvent.from_int 13 = Except.ok OpenVpnPluginEvent.N :=
  ⟨rfl, rfl⟩

/-- C1 (amended): `from_int` inverts the numeric identity for every
variant the code defines (`Up = 0` through `RoutePredown = 12` and the
sentinel `N = 13`), and fails with `InvalidEnumVariant i` for every
`i` outside `0 ..= 13`. -/
theorem from_int_inverts_eventCode :
    (∀ e : OpenVpnPluginEvent,
      OpenVpnPluginEvent.from_int (eventCode e) = Except.ok e) ∧
    (∀ i : Int, i < 0 ∨ 13 < i →
      OpenVpnPluginEvent.from_int i = Except.error ⟨i⟩) := by
  constructor
  · intro e; cases e <;> rfl
  · intro i h
    have hc : ¬(0 ≤ i ∧ i ≤ 13) := by omega
    simp [OpenVpnPluginEvent.from_int, hc]

/-- C1 witness: the out-of-range hypothesis holds at `i = 14` and the
amended theorem applies there. -/
theorem from_int_inverts_eventCode_witness :
    ((14 : Int) < 0 ∨ (13 : Int) < 14) ∧
    OpenVpnPluginEvent.from_int 14 = Except.error ⟨14⟩ :=
  ⟨by decide, from_int_inverts_eventCode.2 14 (by decide)⟩

/-! ## C4: string_array -/

/-- C4: on every well-formed null-terminated pointer array (some
string cells, then a null cell, then arbitrary memory), `string_array`
returns exactly the strings before the terminator in order, and the
null array pointer always yields `NullPtr`. -/
theorem string_array_correct :
    (∀ (strs : List CStringB) (rest : List (Option CStringB)),
      string_array (some (strs.map some ++ none :: rest)) = some (Except.ok strs)) ∧
    string_array none = some (Except.error ParseError.NullPtr) := by
  refine ⟨fun strs rest => ?_, rfl⟩
  simp [string_array, scanStrings_wellFormed]

/-! ## C5, C6, C7: env -/

/-- C5: every entry whose first `=` byte sits at index `i` splits
there — the key is everything before that first `=` (which itself
contains no `=`), the value everything after it, later `=` bytes
included; in particular `env` on the single entry `"foo=bar=baz"`
yields the one-entry map `{"foo" ↦ "bar=baz"}`. -/
theorem env_splits_at_first_eq :
    (∀ (s : CStringB) (i : Nat), positionEq s = some i →
      s = s.take i ++ 61 :: s.drop (i + 1) ∧ (61 : Nat) ∉ s.take i ∧
      envFromList [s] = Except.ok [(s.take i, s.drop (i + 1))]) ∧
    env (some [some fooBarBazBytes, none])
      = some (Except.ok [(fooBytes, barBazBytes)]) := by
  constructor
  · intro s i h
    obtain ⟨h1, h2⟩ := positionEq_split s i h
    exact ⟨h1, h2, by simp [envFromList, envGo, envInsertEntry, h, mapInsert]⟩
  · rfl

/-- C5 witness: the first `=` of `"foo=bar=baz"` is at index 3 and the
theorem applies there. -/
theorem env_splits_at_first_eq_witness :
    positionEq fooBarBazBytes = some 3 ∧
    (fooBarBazBytes = fooBarBazBytes.take 3 ++ 61 :: fooBarBazBytes.drop 4 ∧
     (61 : Nat) ∉ fooBarBazBytes.take 3 ∧
     envFromList [fooBarBazBytes]
       = Except.ok [(fooBarBazBytes.take 3, fooBarBazBytes.drop 4)]) :=
  ⟨rfl, env_splits_at_first_eq.1 fooBarBazBytes 3 rfl⟩

/-- C6: whenever `env`'s loop succeeds, each key is bound to the value
of the last entry in array order carrying that key (so earlier values
are overwritten); in particular the two-entry input
`["foo=123", "foo=abc"]` produces the one-entry map
`{"foo" ↦ "abc"}`, with the earlier value `"123"` absent. -/
theorem env_last_key_wins :
    (∀ (l : List CStringB) (k : CStringB) (m : EnvMap),
      envFromList l = Except.ok m → mapLookup m k = lastBinding l k) ∧
    env (some [some fooEq123Bytes, some fooEqAbcBytes, none])
      = some (Except.ok [(fooBytes, abcBytes)]) := by
  constructor
  · intro l k m h
    have hgo := envGo_lookup l [] m k h
    cases hlb : lastBinding l k <;> simp [hlb, mapLookup] at hgo ⊢ <;> exact hgo
  · rfl

/-- C6 witness: the theorem applies to the concrete duplicate-key
input `["foo=123", "foo=abc"]` and the key `"foo"`. -/
theorem env_last_key_wins_witness :
    envFromList [fooEq123Bytes, fooEqAbcBytes] = Except.ok [(fooBytes, abcBytes)] ∧
    mapLookup [(fooBytes, abcBytes)] fooBytes
      = lastBinding [fooEq123Bytes, fooEqAbcBytes] fooBytes :=
  ⟨rfl, env_last_key_wins.1 [fooEq123Bytes, fooEqAbcBytes] fooBytes
    [(fooBytes, abcBytes)] rfl⟩

/-- C7: if any entry of the input has no `=` byte, `env`'s loop fails
with `NoEqual` carrying such an entry of the input; in particular the
single entry `"foobar"` fails with `NoEqual("foobar")`. -/
theorem env_missing_separator :
    (∀ (l : List CStringB) (s : CStringB), s ∈ l → (61 : Nat) ∉ s →
      ∃ t ∈ l, (61 : Nat) ∉ t ∧
        envFromList l = Except.error (ParseError.NoEqual t)) ∧
    env (some [some foobarBytes, none])
      = some (Except.error (ParseError.NoEqual foobarBytes)) := by
  constructor
  · intro l s hs hn
    exact envGo_missing_sep l [] ⟨s, hs, hn⟩
  · rfl

/-- C7 witness: the hypotheses hold for the entry `"foobar"` of the
singleton input and the theorem applies there. -/
theorem env_missing_separator_witness :
    (foobarBytes ∈ [foobarBytes] ∧ (61 : Nat) ∉ foobarBytes) ∧
    ∃ t ∈ [foobarBytes], (61 : Nat) ∉ t ∧
      envFromList [foobarBytes] = Except.error (ParseError.NoEqual t) :=
  ⟨⟨by simp, by decide⟩,
    env_missing_separator.1 [foobarBytes] foobarBytes (by simp) (by decide)⟩

/-! ## C8: events_to_bitmask -/

/-- C8: `events_to_bitmask` is the bitwise-OR fold of `1 <<< code`
over the members (stated as the accumulator-free right fold), it is
total, and it takes the specified values on the listed inputs. -/
theorem events_to_bitmask_correct :
    (∀ l : List OpenVpnPluginEvent,
      events_to_bitmask l = l.foldr (fun e acc => (1 <<< eventCodeN e) ||| acc) 0) ∧
    events_to_bitmask [] = 0 ∧
    events_to_bitmask [OpenVpnPluginEvent.Up] = 1 ∧
    events_to_bitmask [OpenVpnPluginEvent.RouteUp] = 4 ∧
    events_to_bitmask [OpenVpnPluginEvent.RouteUp, OpenVpnPluginEvent.RoutePredown]
      = (1 <<< 12) ||| (1 <<< 2) := by
  refine ⟨fun l => ?_, rfl, by decide, by decide, by decide⟩
  simpa using foldl_lor_shift (fun e => 1 <<< eventCodeN e) l 0

/-! ## C2: panic isolation and valid status -/

/-- C2: for every user callback — including one whose caught outcome
is a panic — each terminating run of the open and event trampolines
returns one of the three status integers `SUCCESS = 0`, `ERROR = 1`,
`DEFERRED = 2`, and a callback that panics yields `ERROR`. -/
theorem trampolines_no_unwind :
    (∀ (H : Type) (argv envp : Option (List (Option CStringB)))
        (open_fn : List CStringB → EnvMap → CbOutcome (List OpenVpnPluginEvent × H))
        (ret0 : Int × Option H) (st : Int) (ret1 : Int × Option H)
        (reps : List Report),
        openvpn_plugin_open H argv envp open_fn ret0 = some (st, ret1, reps) →
        (st = OPENVPN_PLUGIN_FUNC_SUCCESS ∨ st = OPENVPN_PLUGIN_FUNC_ERROR ∨
         st = OPENVPN_PLUGIN_FUNC_DEFERRED) ∧
        ((∀ a e, open_fn a e = CbOutcome.caughtPanic) →
          st = OPENVPN_PLUGIN_FUNC_ERROR)) ∧
    (∀ (event_type : Int) (argv envp : Option (List (Option CStringB)))
        (event_fn : OpenVpnPluginEvent → List CStringB → EnvMap → CbOutcome EventResult)
        (st : Int) (reps : List Report),
        openvpn_plugin_func event_type argv envp event_fn = some (st, reps) →
        (st = OPENVPN_PLUGIN_FUNC_SUCCESS ∨ st = OPENVPN_PLUGIN_FUNC_ERROR ∨
         st = OPENVPN_PLUGIN_FUNC_DEFERRED) ∧
        ((∀ ev a e, event_fn ev a e = CbOutcome.caughtPanic) →
          st = OPENVPN_PLUGIN_FUNC_ERROR)) := by
  constructor
  · intro H argv envp open_fn ret0 st ret1 reps h
    rcases openvpn_plugin_open_spec H argv envp open_fn ret0 st ret1 reps h with
      ⟨hst, a, e, events, handle, _, _, hcb, _, _⟩ | ⟨hst, _⟩
    · refine ⟨Or.inl hst, fun hall => ?_⟩
      rw [hall a e] at hcb
      exact CbOutcome.noConfusion hcb
    · exact ⟨Or.inr (Or.inl hst), fun _ => hst⟩
  · intro event_type argv envp event_fn st reps h
    exact openvpn_plugin_func_status event_type argv envp event_fn st reps h

/-- C2 witness: a callback that always panics, run on well-formed
empty arrays, makes the open trampoline return `ERROR`. -/
theorem trampolines_no_unwind_witness :
    (openvpn_plugin_open Unit (some [none]) (some [none]) panicOpenCb (0, none)
        = some (OPENVPN_PLUGIN_FUNC_ERROR, (0, none),
            [Report.panicReport "plugin open".data])) ∧
    ((OPENVPN_PLUGIN_FUNC_ERROR = OPENVPN_PLUGIN_FUNC_SUCCESS ∨
      OPENVPN_PLUGIN_FUNC_ERROR = OPENVPN_PLUGIN_FUNC_ERROR ∨
      OPENVPN_PLUGIN_FUNC_ERROR = OPENVPN_PLUGIN_FUNC_DEFERRED) ∧
     ((∀ a e, panicOpenCb a e = CbOutcome.caughtPanic) →
       OPENVPN_PLUGIN_FUNC_ERROR = OPENVPN_PLUGIN_FUNC_ERROR)) :=
  ⟨rfl, trampolines_no_unwind.1 Unit (some [none]) (some [none]) panicOpenCb
    (0, none) OPENVPN_PLUGIN_FUNC_ERROR (0, none)
    [Report.panicReport "plugin open".data] rfl⟩

/-! ## C3: event outcome mapping -/

/-- C3: once the event code, arguments and environment decode, the
event trampoline maps the callback outcome as: `Ok(Success) ↦
SUCCESS`, `Ok(Deferred) ↦ DEFERRED`, `Ok(Failure) ↦ ERROR` with the
report sink never invoked, and `Err(e) ↦ ERROR` with the report sink
invoked exactly once. -/
theorem func_outcome_mapping :
    ∀ (event_type : Int) (ev : OpenVpnPluginEvent)
      (argv envp : Option (List (Option CStringB)))
      (a : List CStringB) (e : EnvMap)
      (event_fn : OpenVpnPluginEvent → List CStringB → EnvMap → CbOutcome EventResult),
      OpenVpnPluginEvent.from_int event_type = Except.ok ev →
      string_array argv = some (Except.ok a) →
      env envp = some (Except.ok e) →
      ((event_fn ev a e = CbOutcome.ok EventResult.Success →
          openvpn_plugin_func event_type argv envp event_fn
            = some (OPENVPN_PLUGIN_FUNC_SUCCESS, [])) ∧
       (event_fn ev a e = CbOutcome.ok EventResult.Deferred →
          openvpn_plugin_func event_type argv envp event_fn
            = some (OPENVPN_PLUGIN_FUNC_DEFERRED, [])) ∧
       (event_fn ev a e = CbOutcome.ok EventResult.Failure →
          openvpn_plugin_func event_type argv envp event_fn
            = some (OPENVPN_PLUGIN_FUNC_ERROR, [])) ∧
       (event_fn ev a e = CbOutcome.err →
          openvpn_plugin_func event_type argv envp event_fn
            = some (OPENVPN_PLUGIN_FUNC_ERROR, [Report.errorReport]))) := by
  intro event_type ev argv envp a e event_fn hev hsa henv
  refine ⟨?_, ?_, ?_, ?_⟩ <;> intro hcb <;>
    simp [openvpn_plugin_func, hev, hsa, henv, hcb]

/-- C3 witness: the hypotheses hold for event code 0 on well-formed
empty arrays with an always-successful callback, and the trampoline
returns `SUCCESS` with no report. -/
theorem func_outcome_mapping_witness :
    (OpenVpnPluginEvent.from_int 0 = Except.ok OpenVpnPluginEvent.Up ∧
     string_array (some [none]) = some (Except.ok []) ∧
     env (some [none]) = some (Except.ok []) ∧
     successEventCb OpenVpnPluginEvent.Up [] [] = CbOutcome.ok EventResult.Success) ∧
    openvpn_plugin_func 0 (some [none]) (some [none]) successEventCb
      = some (OPENVPN_PLUGIN_FUNC_SUCCESS, []) :=
  ⟨⟨rfl, rfl, rfl, rfl⟩,
    (func_outcome_mapping 0 OpenVpnPluginEvent.Up (some [none]) (some [none])
      [] [] successEventCb rfl rfl rfl).1 rfl⟩

/-! ## C10: open-trampoline frame effect -/

/-- C10: every failing terminating run of the open trampoline leaves
the caller's return struct (`type_mask` and `handle`) exactly as it
was and exposes no new handle allocation; the struct is written only
on the `SUCCESS` path, where it receives the event bitmask and the
freshly allocated handle. -/
theorem open_failure_frame :
    ∀ (H : Type) (argv envp : Option (List (Option CStringB)))
      (open_fn : List CStringB → EnvMap → CbOutcome (List OpenVpnPluginEvent × H))
      (ret0 : Int × Option H) (st : Int) (ret1 : Int × Option H)
      (reps : List Report),
      openvpn_plugin_open H argv envp open_fn ret0 = some (st, ret1, reps) →
      (st ≠ OPENVPN_PLUGIN_FUNC_SUCCESS → ret1 = ret0) ∧
      (st = OPENVPN_PLUGIN_FUNC_SUCCESS →
        ∃ a e events handle,
          string_array argv = some (Except.ok a) ∧ env envp = some (Except.ok e) ∧
          open_fn a e = CbOutcome.ok (events, handle) ∧
          ret1 = ((events_to_bitmask events : Int), some handle)) := by
  intro H argv envp open_fn ret0 st ret1 reps h
  rcases openvpn_plugin_open_spec H argv envp open_fn ret0 st ret1 reps h with
    ⟨hst, a, e, events, handle, h1, h2, h3, h4, _⟩ | ⟨hst, hret⟩
  · exact ⟨fun hne => absurd hst hne, fun _ => ⟨a, e, events, handle, h1, h2, h3, h4⟩⟩
  · refine ⟨fun _ => hret, fun hsucc => ?_⟩
    rw [hst] at hsucc
    exact absurd hsucc (by decide)

/-- C10 witness: a failing run (callback returns `Err`) on well-formed
empty arrays leaves the return struct's prior content `(7, none)`
untouched. -/
theorem open_failure_frame_witness :
    (openvpn_plugin_open Unit (some [none]) (some [none]) errOpenCb (7, none)
        = some (OPENVPN_PLUGIN_FUNC_ERROR, (7, none), [Report.errorReport])) ∧
    ((OPENVPN_PLUGIN_FUNC_ERROR ≠ OPENVPN_PLUGIN_FUNC_SUCCESS →
        ((7 : Int), (none : Option Unit)) = (7, none)) ∧
     (OPENVPN_PLUGIN_FUNC_ERROR = OPENVPN_PLUGIN_FUNC_SUCCESS →
        ∃ a e events handle,
          string_array (some [none]) = some (Except.ok a) ∧
          env (some [none]) = some (Except.ok e) ∧
          errOpenCb a e = CbOutcome.ok (events, handle) ∧
          ((7 : Int), (none : Option Unit))
            = ((events_to_bitmask events : Int), some handle))) :=
  ⟨rfl, open_failure_frame Unit (some [none]) (some [none]) errOpenCb (7, none)
    OPENVPN_PLUGIN_FUNC_ERROR (7, none) [Report.errorReport] rfl⟩

/-! ## C9: panic report rendering -/

/-- `occursAtStart` decides the prefix-occurrence property. -/
theorem occursAtStart_iff (pat : List Char) :
    ∀ s : List Char, occursAtStart pat s = true ↔ ∃ r, s = pat ++ r := by
  induction pat with
  | nil => intro s; simp [occursAtStart]
  | cons p ps ih =>
    intro s
    cases s with
    | nil => simp [occursAtStart]
    | cons c cs =>
      simp only [occursAtStart, Bool.and_eq_true, beq_iff_eq, ih cs,
        List.cons_append, List.cons.injEq]
      constructor
      · rintro ⟨hpc, r, hr⟩
        exact ⟨r, hpc.symm, hr⟩
      · rintro ⟨r, hcp, hr⟩
        exact ⟨hcp.symm, r, hr⟩

/-- `occursIn` decides the contiguous-occurrence property. -/
theorem occursIn_iff (pat : List Char) :
    ∀ s : List Char, occursIn pat s = true ↔ ∃ l r, s = l ++ pat ++ r := by
  intro s
  induction s with
  | nil =>
    constructor
    · intro h
      have hp : pat = [] := by
        cases pat with
        | nil => rfl
        | cons x xs => simp [occursIn] at h
      exact ⟨[], [], by simp [hp]⟩
    · rintro ⟨l, r, hr⟩
      have h1 : l ++ pat ++ r = [] := hr.symm
      have hp : pat = [] := by
        cases pat with
        | nil => rfl
        | cons x xs => exfalso; cases l <;> simp at h1
      simp [occursIn, hp]
  | cons c cs ih =>
    simp only [occursIn, Bool.or_eq_true, occursAtStart_iff, ih]
    constructor
    · rintro (⟨r, hr⟩ | ⟨l, r, hr⟩)
      · exact ⟨[], r, by simpa using hr⟩
      · exact ⟨c :: l, r, by simp [hr]⟩
    · rintro ⟨l, r, hr⟩
      cases l with
      | nil => exact Or.inl ⟨r, by simpa using hr⟩
      | cons x xs =>
        simp only [List.cons_append, List.cons.injEq] at hr
        exact Or.inr ⟨xs, r, hr.2⟩

/-- Under the debug escaping, characters that need no escape render as
themselves, so the escape fold is the identity on such payloads. -/
theorem foldr_escape_id (s : List Char) (hesc : ∀ c ∈ s, escapeChar c = [c]) :
    s.foldr (fun c acc => escapeChar c ++ acc) [] = s := by
  induction s with
  | nil => rfl
  | cons c cs ih =>
    simp only [List.foldr_cons, hesc c (List.mem_cons_self c cs),
      ih (fun x hx => hesc x (List.mem_cons_of_mem c hx)), List.singleton_append]

/-- C9 counterexample: for the stage `"plugin open"` and a caught
panic whose payload carries no string, the rendered report message
does not contain the text `no panic message` anywhere — the source
substitutes the empty string, so no such placeholder appears. -/
theorem log_panic_no_placeholder :
    ¬ ∃ l r, log_panic "plugin open".data none
        = l ++ "no panic message".data ++ r := by
  intro h
  have hb := (occursIn_iff ("no panic message".data)
    (log_panic "plugin open".data none)).mpr h
  have hf : occursIn ("no panic message".data)
      (log_panic "plugin open".data none) = false := by decide
  rw [hf] at hb
  exact Bool.noConfusion hb

/-- C9 (amended): the rendered panic report contains the originating
stage name, it contains the panic's string payload (as rendered by the
debug escaping — literally so for payloads needing no escapes), and
when the payload carries no string the message ends in the empty
quoted string `""` rather than any placeholder text. -/
theorem log_panic_message_content :
    ∀ (source : List Char) (payload : Option (List Char)),
      (∃ l r, log_panic source payload = l ++ source ++ r) ∧
      (∀ s, payload = some s → (∀ c ∈ s, escapeChar c = [c]) →
        ∃ l r, log_panic source payload = l ++ s ++ r) ∧
      (payload = none →
        log_panic source payload
          = "Panic in the ".data ++ source ++ " callback: ".data ++ ['"', '"']) := by
  intro source payload
  refine ⟨⟨"Panic in the ".data,
    " callback: ".data ++ rustStrDebug (payload.getD []), ?_⟩, ?_, ?_⟩
  · simp [log_panic, List.append_assoc]
  · rintro s rfl hesc
    refine ⟨"Panic in the ".data ++ source ++ " callback: ".data ++ ['"'], ['"'], ?_⟩
    simp [log_panic, rustStrDebug, foldr_escape_id s hesc, List.append_assoc]
  · rintro rfl
    rfl

/-- C9 witness: the stage `"plugin func"` with payload `"boom"`
(escape-free) yields a message containing `boom`, and the stage
`"plugin open"` with no string payload yields exactly the message
ending in `""`. -/
theorem log_panic_message_content_witness :
    (∃ l r, log_panic ("plugin func".data) (some ("boom".data))
        = l ++ "boom".data ++ r) ∧
    (log_panic ("plugin open".data) none
        = "Panic in the ".data ++ "plugin open".data
          ++ " callback: ".data ++ ['"', '"']) :=
  ⟨(log_panic_message_content ("plugin func".data) (some ("boom".data))).2.1
      ("boom".data) rfl (by decide),
   (log_panic_message_content ("plugin open".data) none).2.2 rfl⟩
